import Mathlib

/-!
Shallow embedding of the bootstrap resampler of
src/notebooks/OR_Test_Statistics.ipynb:

  def bootstrap_samples(rvs, estimator, bootstrap_number):
      n = len(rvs)
      return np.array([estimator(np.random.choice(rvs, size=n))
                       for _ in range(bootstrap_number)])

Modelling decisions, all taken from the source and the documented behaviour
of its library calls:

* Real-valued observations are embedded as rationals (`ℚ`), so that every
  definition is executable and decidable on concrete inputs.
* The global pseudo-random source `np.random` is embedded as an explicit
  stream `g : ℕ → ℕ` of raw draws together with a running position: the
  draw backing position `k` of the resample started at stream position
  `pos` is `g (pos + k)`, reduced modulo the population size, which is how
  a uniform integer draw over `[0, n)` is obtained from the stream.
  Seeding `np.random` fixes the stream, so two runs over the same stream
  model two calls under the same seed.
* `np.random.choice(rvs, size=n)` (legacy numpy API, `replace=True` by
  default) draws `size` independent uniform indices into `rvs` and returns
  the selected values as a freshly allocated array; it raises
  `ValueError: a must be non-empty` whenever the population is empty,
  even for `size=0`.  `choice` below mirrors this, with errors embedded
  as `Except String`.
* The Python `estimator` may raise; it is embedded as
  `List ℚ → Except String ℚ`.  The list comprehension evaluates the
  trials left to right, and the first exception aborts the whole call,
  which is exactly the `Except` short-circuiting of `runTrials`.
* `range(bootstrap_number)` for a Python int is empty whenever
  `bootstrap_number ≤ 0`; `bootstrap_number` is embedded as `ℤ` and the
  trial count as `Int.toNat`, which is `0` on nonpositive inputs.
-/

/-- One resample: `np.random.choice(rvs, size=rvs.length)` with
`replace=True` (the default), drawing each position independently and
uniformly from the indices of `rvs`.  The draw for position `k` is the raw
stream value `g (pos + k)` reduced modulo the population size. -/
def resample (rvs : List ℚ) (g : ℕ → ℕ) (pos : ℕ) : List ℚ :=
  (List.range rvs.length).map fun k => rvs.getD (g (pos + k) % rvs.length) 0

/-- `np.random.choice(rvs, size=rvs.length)` as called by the source:
legacy numpy raises `ValueError: a must be non-empty` when the population
is empty (regardless of `size`), and otherwise returns the resample. -/
def choice (rvs : List ℚ) (g : ℕ → ℕ) (pos : ℕ) : Except String (List ℚ) :=
  if rvs.isEmpty then Except.error "ValueError: a must be non-empty"
  else Except.ok (resample rvs g pos)

/-- The list comprehension
`[estimator(np.random.choice(rvs, size=n)) for _ in range(b)]`, evaluated
left to right from stream position `pos`; each trial consumes
`rvs.length` raw draws, and the first exception (from `choice` or from
`estimator`) aborts the whole comprehension. -/
def runTrials (rvs : List ℚ) (estimator : List ℚ → Except String ℚ)
    (g : ℕ → ℕ) : ℕ → ℕ → Except String (List ℚ)
  | _pos, 0 => Except.ok []
  | pos, b + 1 =>
    match choice rvs g pos with
    | Except.error e => Except.error e
    | Except.ok xs =>
      match estimator xs with
      | Except.error e => Except.error e
      | Except.ok v =>
        match runTrials rvs estimator g (pos + rvs.length) b with
        | Except.error e => Except.error e
        | Except.ok rest => Except.ok (v :: rest)

/-- `bootstrap_samples(rvs, estimator, bootstrap_number)` from the
notebook, with the random source made explicit as the stream `g`.
`range(bootstrap_number)` of a Python int is empty when
`bootstrap_number ≤ 0`, hence the `Int.toNat`. -/
def bootstrap_samples (rvs : List ℚ) (estimator : List ℚ → Except String ℚ)
    (bootstrap_number : ℤ) (g : ℕ → ℕ) : Except String (List ℚ) :=
  runTrials rvs estimator g 0 bootstrap_number.toNat

/-- The resample drawn by trial `k` of `bootstrap_samples`: trial `k`
starts at stream position `k * rvs.length` because each earlier trial
consumed exactly `rvs.length` raw draws. -/
def trialResample (rvs : List ℚ) (g : ℕ → ℕ) (k : ℕ) : List ℚ :=
  resample rvs g (k * rvs.length)

/-- The sample mean, `np.mean`, on rationals (used as a concrete
statistic in witnesses, mirroring the notebook bootstrapping the mean). -/
def mean (xs : List ℚ) : ℚ :=
  xs.sum / xs.length

-- Helper lemmas ------------------------------------------------------------

theorem isEmpty_false_of_ne_nil {rvs : List ℚ} (h : rvs ≠ []) :
    rvs.isEmpty = false := by
  cases rvs with
  | nil => exact absurd rfl h
  | cons a as => rfl

theorem resample_length (rvs : List ℚ) (g : ℕ → ℕ) (pos : ℕ) :
    (resample rvs g pos).length = rvs.length := by
  simp [resample]

/-- With a total estimator and a non-empty sample, the trial loop is the
map of the estimator over the successive resamples. -/
theorem runTrials_eq_map (rvs : List ℚ) (est : List ℚ → ℚ) (g : ℕ → ℕ)
    (h : rvs ≠ []) : ∀ (b pos : ℕ),
    runTrials rvs (fun xs => Except.ok (est xs)) g pos b =
      Except.ok ((List.range b).map fun k =>
        est (resample rvs g (pos + k * rvs.length))) := by
  intro b
  induction b with
  | zero => intro pos; simp [runTrials]
  | succ b ih =>
    intro pos
    simp only [runTrials, choice, isEmpty_false_of_ne_nil h, Bool.false_eq_true,
      if_false, ih (pos + rvs.length)]
    simp only [List.range_succ_eq_map, List.map_cons, List.map_map,
      Except.ok.injEq, List.cons.injEq]
    refine ⟨by norm_num, ?_⟩
    apply List.map_congr_left
    intro k _
    simp only [Function.comp_apply]
    congr 2
    rw [Nat.succ_eq_add_one]
    ring

-- C1 ------------------------------------------------------------------------

/-- C1: for every non-empty sample `rvs`, every statistic function, and
every positive integer `B`, `bootstrap_samples(rvs, statistic, B)` returns
a sequence of exactly `B` elements. -/
theorem C1_replicate_count (rvs : List ℚ) (est : List ℚ → ℚ) (B : ℤ)
    (g : ℕ → ℕ) (hrvs : rvs ≠ []) (hB : 0 < B) :
    ∃ out, bootstrap_samples rvs (fun xs => Except.ok (est xs)) B g =
      Except.ok out ∧ (out.length : ℤ) = B := by
  unfold bootstrap_samples
  refine ⟨_, runTrials_eq_map rvs est g hrvs B.toNat 0, ?_⟩
  simp [Int.toNat_of_nonneg hB.le]

theorem C1_replicate_count_witness :
    ([1, 2] : List ℚ) ≠ [] ∧ (0 : ℤ) < 3 ∧
      ∃ out, bootstrap_samples [1, 2] (fun xs => Except.ok (mean xs)) 3
        (fun i => i) = Except.ok out ∧ (out.length : ℤ) = 3 :=
  ⟨by decide, by decide,
    C1_replicate_count [1, 2] mean 3 (fun i => i) (by decide) (by decide)⟩

-- C2 ------------------------------------------------------------------------

/-- C2: for every non-empty sample of length `n` and positive `B`, each of
the `B` trials draws a resample of exactly `n` values with replacement from
the sample and evaluates the statistic on it; the `k`-th element of the
returned sequence is the statistic applied to the `k`-th resample drawn
(generation order).  `trialResample rvs g k` is the `k`-th resample. -/
theorem C2_trial_structure (rvs : List ℚ) (est : List ℚ → ℚ) (B : ℤ)
    (g : ℕ → ℕ) (hrvs : rvs ≠ []) (_hB : 0 < B) :
    bootstrap_samples rvs (fun xs => Except.ok (est xs)) B g =
      Except.ok ((List.range B.toNat).map fun k =>
        est (trialResample rvs g k)) ∧
    ∀ k : ℕ, (trialResample rvs g k).length = rvs.length := by
  constructor
  · unfold bootstrap_samples
    rw [runTrials_eq_map rvs est g hrvs B.toNat 0]
    simp [trialResample]
  · intro k
    exact resample_length rvs g (k * rvs.length)

theorem C2_trial_structure_witness :
    ([1, 2] : List ℚ) ≠ [] ∧ (0 : ℤ) < 2 ∧
      (bootstrap_samples [1, 2] (fun xs => Except.ok (mean xs)) 2
          (fun i => i) =
        Except.ok ((List.range (2 : ℤ).toNat).map fun k =>
          mean (trialResample [1, 2] (fun i => i) k)) ∧
      ∀ k : ℕ, (trialResample [1, 2] (fun i => i) k).length =
        ([1, 2] : List ℚ).length) :=
  ⟨by decide, by decide,
    C2_trial_structure [1, 2] mean 2 (fun i => i) (by decide) (by decide)⟩

-- C3 ------------------------------------------------------------------------

/-- C3 counterexample: `bootstrap_samples` with `num_replicates = 0` on a
valid sample does not fail; `range(0)` is empty, so it returns the empty
replicate set, contradicting the claimed `InvalidArgument` failure. -/
theorem C3_counterexample :
    bootstrap_samples [1] (fun xs => Except.ok (mean xs)) 0 (fun _ => 0) =
      Except.ok [] := rfl

/-- C3 amended: for every sample, statistic, and stream, calling
`bootstrap_samples` with `num_replicates ≤ 0` performs no validation and
returns an empty replicate set (Python `range` of a nonpositive int is
empty), rather than failing with `InvalidArgument`. -/
theorem C3_nonpositive_replicates_empty (rvs : List ℚ)
    (estimator : List ℚ → Except String ℚ) (B : ℤ) (g : ℕ → ℕ)
    (hB : B ≤ 0) : bootstrap_samples rvs estimator B g = Except.ok [] := by
  unfold bootstrap_samples
  rw [Int.toNat_of_nonpos hB]
  rfl

theorem C3_nonpositive_replicates_empty_witness :
    (-2 : ℤ) ≤ 0 ∧ bootstrap_samples [1, 2]
      (fun xs => Except.ok (mean xs)) (-2) (fun i => i) = Except.ok [] :=
  ⟨by decide, C3_nonpositive_replicates_empty [1, 2]
    (fun xs => Except.ok (mean xs)) (-2) (fun i => i) (by decide)⟩

-- C4 ------------------------------------------------------------------------

/-- C4 counterexample: with an empty sample and `num_replicates = 0`, no
trial runs and `np.random.choice` is never called, so `bootstrap_samples`
returns the empty replicate set instead of failing — the claim's "for
every num_replicates" is false at `num_replicates = 0`. -/
theorem C4_counterexample :
    bootstrap_samples [] (fun xs => Except.ok (mean xs)) 0 (fun _ => 0) =
      Except.ok [] := rfl

/-- C4 amended: for every statistic and every `num_replicates ≥ 1`,
calling `bootstrap_samples` with an empty sample fails immediately: the
first trial's `np.random.choice` raises its invalid-argument `ValueError`
on the empty population (with `num_replicates ≤ 0` the call instead
returns an empty replicate set; there is no dedicated validation). -/
theorem C4_empty_sample_error (estimator : List ℚ → Except String ℚ)
    (B : ℤ) (g : ℕ → ℕ) (hB : 0 < B) :
    bootstrap_samples [] estimator B g =
      Except.error "ValueError: a must be non-empty" := by
  unfold bootstrap_samples
  obtain ⟨m, hm⟩ : ∃ m, B.toNat = m + 1 := ⟨B.toNat - 1, by omega⟩
  rw [hm]
  rfl

theorem C4_empty_sample_error_witness :
    (0 : ℤ) < 2 ∧ bootstrap_samples [] (fun xs => Except.ok (mean xs)) 2
      (fun i => i) = Except.error "ValueError: a must be non-empty" :=
  ⟨by decide, C4_empty_sample_error (fun xs => Except.ok (mean xs)) 2
    (fun i => i) (by decide)⟩

-- C5 ------------------------------------------------------------------------

/-- If all trials before trial `k` evaluate the estimator successfully
and trial `k`'s evaluation fails, the whole trial loop fails with that
error: nothing is skipped and no partial list is produced. -/
theorem runTrials_error_propagates (rvs : List ℚ)
    (est : List ℚ → Except String ℚ) (g : ℕ → ℕ) (e : String)
    (h : rvs ≠ []) : ∀ (b pos k : ℕ), k < b →
    (∀ j < k, ∃ q, est (resample rvs g (pos + j * rvs.length)) =
      Except.ok q) →
    est (resample rvs g (pos + k * rvs.length)) = Except.error e →
    runTrials rvs est g pos b = Except.error e := by
  intro b
  induction b with
  | zero => intro pos k hk; omega
  | succ b ih =>
    intro pos k hk hok herr
    simp only [runTrials, choice, isEmpty_false_of_ne_nil h,
      Bool.false_eq_true, if_false]
    cases k with
    | zero =>
      have h0 : est (resample rvs g pos) = Except.error e := by
        simpa using herr
      rw [h0]
    | succ k =>
      obtain ⟨q, hq⟩ := hok 0 (Nat.succ_pos k)
      have hq0 : est (resample rvs g pos) = Except.ok q := by
        simpa using hq
      rw [hq0]
      have herr' : est (resample rvs g
          (pos + rvs.length + k * rvs.length)) = Except.error e := by
        rw [show pos + rvs.length + k * rvs.length =
          pos + (k + 1) * rvs.length by ring]
        exact herr
      have hok' : ∀ j < k, ∃ q, est (resample rvs g
          (pos + rvs.length + j * rvs.length)) = Except.ok q := by
        intro j hj
        obtain ⟨q', hq'⟩ := hok (j + 1) (by omega)
        refine ⟨q', ?_⟩
        rw [show pos + rvs.length + j * rvs.length =
          pos + (j + 1) * rvs.length by ring]
        exact hq'
      rw [ih (pos + rvs.length) k (by omega) hok' herr']

/-- C5: if the statistic fails on the resample of some trial `k` (all
earlier trials succeeding), `bootstrap_samples` propagates that failure to
the caller; no trial's failure is skipped and no partial replicate set is
returned. -/
theorem C5_statistic_failure_propagates (rvs : List ℚ)
    (est : List ℚ → Except String ℚ) (B : ℤ) (g : ℕ → ℕ) (e : String)
    (k : ℕ) (hrvs : rvs ≠ []) (hk : k < B.toNat)
    (hok : ∀ j < k, ∃ q, est (trialResample rvs g j) = Except.ok q)
    (herr : est (trialResample rvs g k) = Except.error e) :
    bootstrap_samples rvs est B g = Except.error e := by
  unfold bootstrap_samples
  apply runTrials_error_propagates rvs est g e hrvs B.toNat 0 k hk
  · intro j hj
    obtain ⟨q, hq⟩ := hok j hj
    exact ⟨q, by simpa [trialResample] using hq⟩
  · simpa [trialResample] using herr

/-- The spec's failing statistic `1/x.count(0)`: a `ZeroDivisionError`
when the resample contains no zero. -/
def countZeroStat (xs : List ℚ) : Except String ℚ :=
  if xs.count 0 = 0 then
    Except.error "ZeroDivisionError: division by zero"
  else Except.ok (1 / (xs.count 0 : ℚ))

theorem C5_statistic_failure_propagates_witness :
    ([0, 1] : List ℚ) ≠ [] ∧ (0 : ℕ) < (1 : ℤ).toNat ∧
      countZeroStat (trialResample [0, 1] (fun _ => 1) 0) =
        Except.error "ZeroDivisionError: division by zero" ∧
      bootstrap_samples [0, 1] countZeroStat 1 (fun _ => 1) =
        Except.error "ZeroDivisionError: division by zero" :=
  ⟨by decide, by decide, rfl,
    C5_statistic_failure_propagates [0, 1] countZeroStat 1 (fun _ => 1)
      "ZeroDivisionError: division by zero" 0 (by decide) (by decide)
      (fun j hj => absurd hj (Nat.not_lt_zero j)) rfl⟩

-- C6 ------------------------------------------------------------------------

/-- Every element of a resample is an element of the population: each
position holds `rvs[draw % rvs.length]`. -/
theorem resample_mem (rvs : List ℚ) (g : ℕ → ℕ) (pos : ℕ)
    (hrvs : rvs ≠ []) : ∀ x ∈ resample rvs g pos, x ∈ rvs := by
  intro x hx
  simp only [resample, List.mem_map, List.mem_range] at hx
  obtain ⟨i, hi, rfl⟩ := hx
  have hlen : 0 < rvs.length := List.length_pos.mpr hrvs
  have hmod : g (pos + i) % rvs.length < rvs.length :=
    Nat.mod_lt _ hlen
  rw [List.getD_eq_getElem rvs 0 hmod]
  exact List.getElem_mem hmod

/-- C6: for a non-empty sample, every element of every resample drawn
internally by `bootstrap_samples` (the `k`-th trial's resample being
`trialResample rvs g k`, per C2's correspondence theorem) is value-wise a
member of the original sample. -/
theorem C6_resample_subset (rvs : List ℚ) (g : ℕ → ℕ) (k : ℕ)
    (hrvs : rvs ≠ []) : ∀ x ∈ trialResample rvs g k, x ∈ rvs :=
  resample_mem rvs g (k * rvs.length) hrvs

theorem C6_resample_subset_witness :
    ([1, 2] : List ℚ) ≠ [] ∧
      ∀ x ∈ trialResample [1, 2] (fun i => i) 0, x ∈ ([1, 2] : List ℚ) :=
  ⟨by decide, C6_resample_subset [1, 2] (fun i => i) 0 (by decide)⟩

-- C7 ------------------------------------------------------------------------

/-- A resample of an all-constant sample is the constant list of the same
length. -/
theorem resample_const (rvs : List ℚ) (c : ℚ) (g : ℕ → ℕ) (pos : ℕ)
    (hrvs : rvs ≠ []) (hc : ∀ x ∈ rvs, x = c) :
    resample rvs g pos = List.replicate rvs.length c := by
  have h := List.eq_replicate_of_mem
    (fun b hb => hc b (resample_mem rvs g pos hrvs b hb))
  rw [resample_length] at h
  exact h

/-- C7: for a non-empty all-constant sample, every statistic, and every
positive `B`, every replicate equals the statistic applied to the constant
sample of the same length (e.g., bootstrapping the mean of `[5,5,5,5]`
always yields replicate mean 5). -/
theorem C7_constant_sample (rvs : List ℚ) (c : ℚ) (est : List ℚ → ℚ)
    (B : ℤ) (g : ℕ → ℕ) (hrvs : rvs ≠ []) (hc : ∀ x ∈ rvs, x = c)
    (_hB : 0 < B) :
    bootstrap_samples rvs (fun xs => Except.ok (est xs)) B g =
      Except.ok (List.replicate B.toNat
        (est (List.replicate rvs.length c))) := by
  unfold bootstrap_samples
  rw [runTrials_eq_map rvs est g hrvs B.toNat 0]
  congr 1
  have hconst : ∀ k ∈ List.range B.toNat,
      est (resample rvs g (0 + k * rvs.length)) =
        est (List.replicate rvs.length c) := by
    intro k _
    rw [resample_const rvs c g _ hrvs hc]
  rw [List.map_congr_left hconst]
  simp

theorem C7_constant_sample_witness :
    ([5, 5, 5, 5] : List ℚ) ≠ [] ∧
      (∀ x ∈ ([5, 5, 5, 5] : List ℚ), x = 5) ∧ (0 : ℤ) < 2 ∧
      (bootstrap_samples [5, 5, 5, 5] (fun xs => Except.ok (mean xs)) 2
          (fun i => i) =
        Except.ok (List.replicate (2 : ℤ).toNat
          (mean (List.replicate ([5, 5, 5, 5] : List ℚ).length 5))) ∧
        mean (List.replicate ([5, 5, 5, 5] : List ℚ).length 5) = 5) :=
  ⟨by decide, by decide, by decide,
    C7_constant_sample [5, 5, 5, 5] 5 mean 2 (fun i => i) (by decide)
      (by decide) (by decide), by norm_num [mean]⟩

-- C8 ------------------------------------------------------------------------

/-- The trial loop reads the stream only on the window
`[pos, pos + b * rvs.length)`: two streams agreeing there produce the
same result. -/
theorem runTrials_congr_stream (rvs : List ℚ)
    (est : List ℚ → Except String ℚ) (g₁ g₂ : ℕ → ℕ) : ∀ (b pos : ℕ),
    (∀ i, pos ≤ i → i < pos + b * rvs.length → g₁ i = g₂ i) →
    runTrials rvs est g₁ pos b = runTrials rvs est g₂ pos b := by
  intro b
  induction b with
  | zero => intro pos _; rfl
  | succ b ih =>
    intro pos hg
    have hexp : (b + 1) * rvs.length = b * rvs.length + rvs.length := by
      ring
    have hres : resample rvs g₁ pos = resample rvs g₂ pos := by
      unfold resample
      apply List.map_congr_left
      intro k hk
      have hklt : k < rvs.length := List.mem_range.mp hk
      have hkw : pos + k < pos + (b + 1) * rvs.length := by
        rw [hexp]
        have := Nat.zero_le (b * rvs.length)
        linarith
      rw [hg (pos + k) (Nat.le_add_right pos k) hkw]
    have hrec : runTrials rvs est g₁ (pos + rvs.length) b =
        runTrials rvs est g₂ (pos + rvs.length) b := by
      apply ih
      intro i hi1 hi2
      refine hg i (by omega) ?_
      rw [hexp]
      linarith
    simp only [runTrials, choice, hres, hrec]

/-- C8: `bootstrap_samples` is deterministic in the injected random
source: its result depends only on the `B·n` raw draws it consumes, so
two calls over the same seeded stream (or any two streams agreeing on
that consumed prefix) yield identical replicate sets, and consuming those
draws is the only interaction with the source. -/
theorem C8_deterministic (rvs : List ℚ) (est : List ℚ → Except String ℚ)
    (B : ℤ) (g₁ g₂ : ℕ → ℕ)
    (hg : ∀ i < B.toNat * rvs.length, g₁ i = g₂ i) :
    bootstrap_samples rvs est B g₁ = bootstrap_samples rvs est B g₂ := by
  unfold bootstrap_samples
  apply runTrials_congr_stream rvs est g₁ g₂ B.toNat 0
  intro i _ hi
  exact hg i (by simpa using hi)

theorem C8_deterministic_witness :
    (∀ i < (3 : ℤ).toNat * ([1, 2] : List ℚ).length,
        (fun i => i) i = (fun i => if i < 6 then i else 99) i) ∧
      bootstrap_samples [1, 2] (fun xs => Except.ok (mean xs)) 3
          (fun i => i) =
        bootstrap_samples [1, 2] (fun xs => Except.ok (mean xs)) 3
          (fun i => if i < 6 then i else 99) :=
  ⟨by decide, C8_deterministic [1, 2] (fun xs => Except.ok (mean xs)) 3
    (fun i => i) (fun i => if i < 6 then i else 99) (by decide)⟩

-- Store model for the frame claims ------------------------------------------

/-- A heap of numpy arrays for the frame-condition claims: cell `i` holds
the contents of array `i`.  `np.random.choice` returns a freshly
allocated array, so each trial's resample gets a new cell, while the
original sample `rvs` stays in its own cell. -/
structure Store where
  cells : List (List ℚ)

/-- Allocation of a fresh array: the next free identifier, with the store
extended by one cell holding `v`. -/
def alloc (s : Store) (v : List ℚ) : ℕ × Store :=
  (s.cells.length, ⟨s.cells ++ [v]⟩)

/-- The trial loop with allocation made explicit.  Each trial reads the
sample from cell `rvsId`, draws its resample, allocates a fresh cell for
it (`np.random.choice` returns a new array), and hands the resample to
the estimator, which may mutate its argument in place — modelled by
`estimator` returning the contents it leaves in the argument cell along
with its value.  The trial's slot in the output records the resample's
cell and the estimator's value. -/
def runTrialsAlloc (rvsId : ℕ) (estimator : List ℚ → List ℚ × ℚ)
    (g : ℕ → ℕ) : Store → ℕ → ℕ → Store × List (ℕ × ℚ)
  | s, _pos, 0 => (s, [])
  | s, pos, b + 1 =>
    let rvs := s.cells.getD rvsId []
    let xs := resample rvs g pos
    let a := alloc s xs
    let m := estimator xs
    let s₂ : Store := ⟨a.2.cells.set a.1 m.1⟩
    let rest := runTrialsAlloc rvsId estimator g s₂ (pos + rvs.length) b
    (rest.1, (a.1, m.2) :: rest.2)

/-- `bootstrap_samples` over the store model: the sample lives in cell
`rvsId` and the `bootstrap_number.toNat` trials run from stream
position 0. -/
def bootstrap_samples_alloc (rvsId : ℕ)
    (estimator : List ℚ → List ℚ × ℚ) (bootstrap_number : ℤ)
    (g : ℕ → ℕ) (s : Store) : Store × List (ℕ × ℚ) :=
  runTrialsAlloc rvsId estimator g s 0 bootstrap_number.toNat

theorem set_append_singleton {α : Type} (l : List α) (a b : α) :
    (l ++ [a]).set l.length b = l ++ [b] := by
  induction l with
  | nil => rfl
  | cons x xs ih =>
    simp only [List.cons_append, List.length_cons, List.set, List.append_eq]
    rw [ih]

/-- Trials only allocate fresh cells and write there: every cell present
before the loop — in particular the sample's — is untouched. -/
theorem runTrialsAlloc_preserves (rvsId : ℕ)
    (estimator : List ℚ → List ℚ × ℚ) (g : ℕ → ℕ) :
    ∀ (b : ℕ) (s : Store) (pos i : ℕ), i < s.cells.length →
      (runTrialsAlloc rvsId estimator g s pos b).1.cells.getD i [] =
        s.cells.getD i [] := by
  intro b
  induction b with
  | zero => intro s pos i _; rfl
  | succ b ih =>
    intro s pos i hi
    simp only [runTrialsAlloc, alloc]
    rw [set_append_singleton]
    rw [ih _ _ i (by simp; omega)]
    exact List.getD_append _ _ _ _ hi
  
/-- The cells allocated by `b` trials starting from store `s` are exactly
the `b` fresh identifiers following `s.cells.length`, in order. -/
theorem runTrialsAlloc_ids (rvsId : ℕ)
    (estimator : List ℚ → List ℚ × ℚ) (g : ℕ → ℕ) :
    ∀ (b : ℕ) (s : Store) (pos : ℕ),
    (runTrialsAlloc rvsId estimator g s pos b).2.map Prod.fst =
      List.range' s.cells.length b := by
  intro b
  induction b with
  | zero => intro s pos; rfl
  | succ b ih =>
    intro s pos
    simp only [runTrialsAlloc, alloc, List.map_cons]
    rw [set_append_singleton, ih]
    simp [List.range'_succ]

-- C9 ------------------------------------------------------------------------

/-- C9: for every store, sample cell, estimator, replicate count and
stream, after `bootstrap_samples` the original sample's cell is unchanged
(same list, hence same length, values and order): each trial only reads
the sample and writes its own freshly allocated slot. -/
theorem C9_sample_unchanged (rvsId : ℕ)
    (estimator : List ℚ → List ℚ × ℚ) (B : ℤ) (g : ℕ → ℕ) (s : Store)
    (h : rvsId < s.cells.length) :
    (bootstrap_samples_alloc rvsId estimator B g s).1.cells.getD rvsId []
      = s.cells.getD rvsId [] :=
  runTrialsAlloc_preserves rvsId estimator g B.toNat s 0 rvsId h

theorem C9_sample_unchanged_witness :
    (0 : ℕ) < (Store.mk [[1, 2]]).cells.length ∧
      (bootstrap_samples_alloc 0 (fun xs => (xs.reverse, mean xs)) 2
          (fun i => i) (Store.mk [[1, 2]])).1.cells.getD 0 [] =
        (Store.mk [[1, 2]]).cells.getD 0 [] :=
  ⟨by decide, C9_sample_unchanged 0 (fun xs => (xs.reverse, mean xs)) 2
    (fun i => i) (Store.mk [[1, 2]]) (by decide)⟩

-- C10 -----------------------------------------------------------------------

/-- C10: in every trial the resample handed to the statistic is a freshly
allocated cell, distinct from the original sample's cell and from every
other trial's resample cell — so a statistic that mutates its argument
can only touch its own trial's cell. -/
theorem C10_fresh_resamples (rvsId : ℕ)
    (estimator : List ℚ → List ℚ × ℚ) (B : ℤ) (g : ℕ → ℕ) (s : Store)
    (h : rvsId < s.cells.length) :
    ((bootstrap_samples_alloc rvsId estimator B g s).2.map
      Prod.fst).Nodup ∧
    ∀ p ∈ (bootstrap_samples_alloc rvsId estimator B g s).2,
      s.cells.length ≤ p.1 ∧ p.1 ≠ rvsId := by
  have hids : (bootstrap_samples_alloc rvsId estimator B g s).2.map
      Prod.fst = List.range' s.cells.length B.toNat :=
    runTrialsAlloc_ids rvsId estimator g B.toNat s 0
  constructor
  · rw [hids]
    exact List.nodup_range' s.cells.length B.toNat
  · intro p hp
    have hmem : p.1 ∈ (bootstrap_samples_alloc rvsId estimator B g
        s).2.map Prod.fst := List.mem_map_of_mem Prod.fst hp
    rw [hids] at hmem
    have hb := List.mem_range'_1.mp hmem
    exact ⟨hb.1, by omega⟩

theorem C10_fresh_resamples_witness :
    (0 : ℕ) < (Store.mk [[1, 2]]).cells.length ∧
      (((bootstrap_samples_alloc 0 (fun xs => (xs.reverse, mean xs)) 2
          (fun i => i) (Store.mk [[1, 2]])).2.map Prod.fst).Nodup ∧
        ∀ p ∈ (bootstrap_samples_alloc 0 (fun xs => (xs.reverse, mean xs))
            2 (fun i => i) (Store.mk [[1, 2]])).2,
          (Store.mk [[1, 2]]).cells.length ≤ p.1 ∧ p.1 ≠ 0) :=
  ⟨by decide, C10_fresh_resamples 0 (fun xs => (xs.reverse, mean xs)) 2
    (fun i => i) (Store.mk [[1, 2]]) (by decide)⟩
